import Mathlib

/-!
Shallow embedding of the report creation engine of `src/tools/createFlow.ts`
(`handleCreateReport` and its helpers `buildReportFieldMap`,
`mapToCanonicalReportField`, `throwIfInvalidFields`,
`getValidOperatorsForField`, `normalizeOperatorForField`) together with the
dispatch boundary of `src/index.ts`.

Modeling conventions:

* JavaScript objects used as string dictionaries (`fieldMap`, `fieldTypeMap`)
  are association lists with update-in-place semantics (`jsSet`), matching
  property assignment; `Object.values` is `jsValues`; `new Set(...)` followed
  by `Array.from` is `jsSetElems` (first-occurrence de-duplication).
* `toUpperCase`, `toLowerCase` and the regexes `/\s|_/g` and
  `/[^a-zA-Z0-9_]/g` are modeled over the ASCII range, which is the range the
  engine and its schema identifiers use.
* Exceptions are modeled with `Except String`; a `.error` escaping a function
  models a thrown JavaScript exception, and try/catch blocks are explicit
  matches on the inner `Except` value.
* The remote endpoints (SOQL folder queries, the report-type describe call and
  the report creation POST) are fields of an `SfEnv` record; each returns
  `Except String` so that a remote failure can also be modeled.
* Untyped verbatim pass-through sections of the metadata body (chart,
  presentationOptions, crossFilters, standardDateFilter, standardFilters,
  dashboardSetting) are not modeled; no verified property mentions them and
  the source copies them without inspection.
* Absent JavaScript values (`undefined`) are `none`; arguments that may be
  `null` as a distinct value (`currency`, `division`,
  `userOrHierarchyFilterId`) are `Option (Option String)`.
-/

namespace SfReport

/-- ASCII model of `String.prototype.toUpperCase` on one character. -/
def jsCharUpper (c : Char) : Char :=
  let n := c.toNat
  if n ≥ 97 ∧ n ≤ 122 then Char.ofNat (n - 32) else c

/-- ASCII model of `String.prototype.toLowerCase` on one character. -/
def jsCharLower (c : Char) : Char :=
  let n := c.toNat
  if n ≥ 65 ∧ n ≤ 90 then Char.ofNat (n + 32) else c

/-- ASCII model of `toUpperCase`. -/
def jsToUpper (s : String) : String :=
  String.mk (s.data.map jsCharUpper)

/-- ASCII model of `toLowerCase`. -/
def jsToLower (s : String) : String :=
  String.mk (s.data.map jsCharLower)

/-- Characters removed by the regex `/\s|_/g`. -/
def jsStripped (c : Char) : Bool :=
  c = '_' || c.isWhitespace

/-- Model of `.replace(/\s|_/g, "")`. -/
def jsStripSpaceUnderscore (s : String) : String :=
  String.mk (s.data.filter (fun c => ¬ jsStripped c))

/-- Model of `op.toLowerCase().replace(/\s|_/g, "")`, the operator input
normalization of `normalizeOperatorForField`. -/
def jsNormalizeOp (s : String) : String :=
  jsStripSpaceUnderscore (jsToLower s)

/-- Removal of leading whitespace characters. -/
def dropLeadingWs : List Char → List Char
  | [] => []
  | c :: cs => if c.isWhitespace then dropLeadingWs cs else c :: cs

/-- Model of `String.prototype.trim`: leading and trailing whitespace
removed. -/
def jsTrim (s : String) : String :=
  String.mk ((dropLeadingWs (dropLeadingWs s.data.reverse).reverse))

/-- Membership of an ASCII character in the class `[a-zA-Z0-9_]`. -/
def jsWordChar (c : Char) : Bool :=
  let n := c.toNat
  (n ≥ 97 ∧ n ≤ 122) || (n ≥ 65 ∧ n ≤ 90) || (n ≥ 48 ∧ n ≤ 57) || c = '_'

/-- Model of `reportName.replace(/[^a-zA-Z0-9_]/g, "_")`, the automatic
developer-name derivation. -/
def jsSanitizeDevName (s : String) : String :=
  String.mk (s.data.map (fun c => if jsWordChar c then c else '_'))

/-- JavaScript objects used as string-to-string dictionaries. -/
abbrev JsObj := List (String × String)

/-- Property read: the value stored under key `k`, if any. -/
def jsGet (m : JsObj) (k : String) : Option String :=
  (m.find? (fun kv => kv.1 = k)).map (fun kv => kv.2)

/-- Property read defaulted to the empty string; `jsGetD m k ≠ ""` is exactly
the JavaScript truthiness test `m[k]` for these string-valued dictionaries. -/
def jsGetD (m : JsObj) (k : String) : String :=
  (jsGet m k).getD ""

/-- Property assignment `m[k] = v`: updates in place, else appends. -/
def jsSet (m : JsObj) (k v : String) : JsObj :=
  match m with
  | [] => [(k, v)]
  | kv :: rest => if kv.1 = k then (k, v) :: rest else kv :: jsSet rest k v

/-- Model of `Object.values`. -/
def jsValues (m : JsObj) : List String :=
  m.map (fun kv => kv.2)

/-- Model of `Array.from(new Set(l))`: de-duplication keeping the first
occurrence of each element. -/
def jsSetElems (l : List String) : List String :=
  l.foldl (fun acc a => if a ∈ acc then acc else acc ++ [a]) []

/-- Model of `Array.prototype.join(", ")`. -/
def joinComma : List String → String
  | [] => ""
  | [a] => a
  | a :: rest => a ++ ", " ++ joinComma rest

/-- Substring containment, used to state what an error message carries. -/
def strContains (big small : String) : Prop :=
  small.data <:+: big.data

instance (big small : String) : Decidable (strContains big small) :=
  List.decidableInfix small.data big.data

/-- True exactly on `Except.ok` results. -/
def exceptOk {ε α : Type} : Except ε α → Bool
  | .ok _ => true
  | .error _ => false

/-- JavaScript string interpolation of a possibly-null value: `null` prints
as the text `null`. -/
def optToJsString : Option String → String
  | some s => s
  | none => "null"

/-- Truthiness of an optional string argument (absent and empty are falsy). -/
def strTruthy (o : Option String) : Bool :=
  (o.getD "") ≠ ""

/-! ## Data model of the remote schema description -/

/-- One operator of the per-data-type compatibility table
(`dataTypeFilterOperatorMap` entries have a `name` and a `label`). -/
structure OperatorEntry where
  name : String
  label : String
deriving DecidableEq, Repr

/-- One column of `detailColumnInfo` or of a category column catalog. -/
structure ColumnInfo where
  label : Option String
  dataType : Option String
deriving DecidableEq, Repr

/-- The relevant portion of the report-type describe response:
`reportExtendedMetadata.detailColumnInfo`, `reportTypeMetadata.categories`
(each category contributing its `columns` object), and
`reportTypeMetadata.dataTypeFilterOperatorMap`. A missing catalog is the
empty list. -/
structure SchemaDescription where
  detailColumnInfo : List (String × ColumnInfo)
  categories : List (List (String × ColumnInfo))
  dataTypeFilterOperatorMap : List (String × List OperatorEntry)
deriving DecidableEq, Repr

/-- The three maps produced by `buildReportFieldMap`. -/
structure FieldMaps where
  fieldMap : JsObj
  fieldTypeMap : JsObj
  operatorMap : List (String × List OperatorEntry)
deriving DecidableEq, Repr

/-- Lookup in the data-type-to-operators table; `none` models the absence of
the property, the only falsy case since arrays are truthy. -/
def omGet (om : List (String × List OperatorEntry)) (dt : String) :
    Option (List OperatorEntry) :=
  (om.find? (fun e => e.1 = dt)).map (fun e => e.2)

/-! ## Field map construction (`buildReportFieldMap`) -/

/-- Registration of one column catalog entry: the uppercased apiName key and,
when a non-empty label is present, the uppercased label key are written to
`fieldMap` (both mapping to the canonical apiName) and to `fieldTypeMap`
(both mapping to the dataType, defaulted to the empty string). -/
def registerEntry (st : JsObj × JsObj) (key : String) (info : ColumnInfo) :
    JsObj × JsObj :=
  let dt := info.dataType.getD ""
  let fm := jsSet st.1 (jsToUpper key) key
  let ftm := jsSet st.2 (jsToUpper key) dt
  match info.label with
  | some lbl =>
      if lbl.length ≠ 0 then
        (jsSet fm (jsToUpper lbl) key, jsSet ftm (jsToUpper lbl) dt)
      else (fm, ftm)
  | none => (fm, ftm)

/-- Registration of one category catalog entry: skipped entirely when the
uppercased apiName key is already truthy in `fieldMap` (the
`if (!fieldMap[catKeyUp])` guard); otherwise registered like a detail
entry. -/
def registerCategoryEntry (st : JsObj × JsObj) (key : String)
    (info : ColumnInfo) : JsObj × JsObj :=
  if jsGetD st.1 (jsToUpper key) ≠ "" then st
  else registerEntry st key info

/-- The pure part of `buildReportFieldMap`: iterate `detailColumnInfo` first,
then every category column catalog. -/
def buildFieldMapsFromDesc (desc : SchemaDescription) : FieldMaps :=
  let st := desc.detailColumnInfo.foldl
    (fun st kv => registerEntry st kv.1 kv.2) ([], [])
  let st := desc.categories.foldl
    (fun st cat => cat.foldl
      (fun st kv => registerCategoryEntry st kv.1 kv.2) st) st
  { fieldMap := st.1, fieldTypeMap := st.2,
    operatorMap := desc.dataTypeFilterOperatorMap }

/-- The describe endpoint as consumed by `buildReportFieldMap`. -/
abbrev DescribeFn := String → Except String SchemaDescription

/-- Report type as accepted on input: `type` and `label` may each be absent
or empty. -/
structure ReportTypeIn where
  type : Option String
  label : Option String
deriving DecidableEq, Repr

/-- Model of `buildReportFieldMap`: an absent or empty `type` yields empty
maps without a fetch; a failed fetch becomes the schema-fetch error message;
otherwise the maps are built from the description. -/
def buildReportFieldMap (describe : DescribeFn) (rt : ReportTypeIn) :
    Except String FieldMaps :=
  match rt.type with
  | none => .ok { fieldMap := [], fieldTypeMap := [], operatorMap := [] }
  | some tn =>
      if tn = "" then .ok { fieldMap := [], fieldTypeMap := [], operatorMap := [] }
      else
        match describe tn with
        | .ok desc => .ok (buildFieldMapsFromDesc desc)
        | .error e =>
            .error ("Failed to fetch report type metadata for \x27" ++ tn
              ++ "\x27: " ++ e)

/-! ## Field resolution and validation -/

/-- Model of `mapToCanonicalReportField`: exact key, then uppercased key
(both under truthiness), then a linear scan comparing trimmed uppercased
keys, finally falling back to the uppercased input itself. -/
def mapToCanonicalReportField (fieldMap : JsObj) (val : String) : String :=
  if val = "" then val
  else if jsGetD fieldMap val ≠ "" then jsGetD fieldMap val
  else
    let upper := jsToUpper val
    if jsGetD fieldMap upper ≠ "" then jsGetD fieldMap upper
    else
      match fieldMap.find? (fun kv => jsToUpper (jsTrim kv.1) = upper) with
      | some kv => kv.2
      | none => upper

/-- The text of the validation error thrown by `throwIfInvalidFields`. -/
def validationMessage (requested kind : String) (allowed : List String) :
    String :=
  "Field \x27" ++ requested ++ "\x27 is not a valid " ++ kind
    ++ " for this Salesforce report type. Allowed:" ++ joinComma allowed ++ "]"

/-- The loop body of `throwIfInvalidFields` over the batch. -/
def checkFields (fieldMap : JsObj) (kind : String) (allowed : List String) :
    List String → Except String Unit
  | [] => .ok ()
  | requested :: rest =>
      if requested = "" then checkFields fieldMap kind allowed rest
      else if mapToCanonicalReportField fieldMap requested ∈ allowed then
        checkFields fieldMap kind allowed rest
      else .error (validationMessage requested kind allowed)

/-- Model of `throwIfInvalidFields`: all-or-nothing batch validation against
the de-duplicated value set of the field map. -/
def throwIfInvalidFields (fieldsArr : List String) (kind : String)
    (fieldMap : JsObj) : Except String Unit :=
  checkFields fieldMap kind (jsSetElems (jsValues fieldMap)) fieldsArr

/-- The first entry of the batch on which `throwIfInvalidFields` throws,
if any. -/
def firstNoMapping (fieldMap : JsObj) (allowed : List String) :
    List String → Option String
  | [] => none
  | requested :: rest =>
      if requested = "" then firstNoMapping fieldMap allowed rest
      else if mapToCanonicalReportField fieldMap requested ∈ allowed then
        firstNoMapping fieldMap allowed rest
      else some requested

/-! ## Operator resolution -/

/-- Model of `getValidOperatorsForField`: the operator names valid for the
dataType recorded for the uppercased column, or `[]` when the column is
falsy, has no truthy dataType, or the table has no entry for it. -/
def getValidOperatorsForField (ftm : JsObj)
    (om : List (String × List OperatorEntry)) (column : String) :
    List String :=
  if column = "" then []
  else
    let tp := jsGetD ftm (jsToUpper column)
    if tp = "" then []
    else
      match omGet om tp with
      | none => []
      | some ops => ops.map (fun o => o.name)

/-- Model of `normalizeOperatorForField`: normalized comparison against the
valid operator names, then against their labels, then the exact-name
passthrough, then the fallback to the first valid operator. -/
def normalizeOperatorForField (ftm : JsObj)
    (om : List (String × List OperatorEntry)) (op column : String) : String :=
  if op = "" then ""
  else
    let valids := getValidOperatorsForField ftm om column
    match valids with
    | [] => op
    | v0 :: vs =>
        let input := jsNormalizeOp op
        match (v0 :: vs).find? (fun v => input = jsToLower v) with
        | some v => v
        | none =>
            let ops := (omGet om (jsGetD ftm (jsToUpper column))).getD []
            match ops.find? (fun o => input = jsNormalizeOp o.label) with
            | some o => o.name
            | none =>
                if (v0 :: vs).contains op then op
                else if v0 = "" then op else v0

/-! ## Arguments and assembled document -/

/-- Simplified-shape filter `{field, operator, value}`. -/
structure SimplifiedFilter where
  field : String
  operator : String
  value : String
deriving DecidableEq, Repr

/-- Raw-shape filter `{column, operator, value}`. -/
structure RawFilter where
  column : String
  operator : String
  value : String
deriving DecidableEq, Repr

/-- Filter as placed in the assembled document. -/
structure OutFilter where
  column : String
  operator : String
  value : String
deriving DecidableEq, Repr

/-- Grouping entry as supplied by the caller; absent members are `none`. -/
structure GroupingIn where
  name : String
  sortOrder : Option String
  sortAggregate : Option String
  dateGranularity : Option String
deriving DecidableEq, Repr

/-- Grouping entry as placed in the assembled document. -/
structure GroupingOut where
  name : String
  sortOrder : String
  sortAggregate : Option String
  dateGranularity : String
deriving DecidableEq, Repr

/-- The nested full-metadata object (`reportMetadata` argument), restricted to
the members the handler reads. -/
structure NestedMetadata where
  filters : Option (List SimplifiedFilter)
  reportFilters : Option (List RawFilter)
  aggregates : Option (List String)
  groupingsDown : Option (List GroupingIn)
  groupingsAcross : Option (List GroupingIn)
deriving DecidableEq, Repr

/-- The `CreateReportArgs` interface. -/
structure CreateReportArgs where
  reportName : String
  objectName : Option String
  columns : Option (List String)
  filters : Option (List SimplifiedFilter)
  reportType : Option ReportTypeIn
  folderName : Option String
  folderId : Option String
  id : Option String
  reportFormat : Option String
  reportBooleanFilter : Option String
  reportFilters : Option (List RawFilter)
  detailColumns : Option (List String)
  developerName : Option String
  currency : Option (Option String)
  aggregates : Option (List String)
  groupingsDown : Option (List GroupingIn)
  groupingsAcross : Option (List GroupingIn)
  reportMetadata : Option NestedMetadata
  scope : Option String
  showGrandTotal : Option Bool
  showSubtotals : Option Bool
  hasDetailRows : Option Bool
  hasRecordCount : Option Bool
  division : Option (Option String)
  userOrHierarchyFilterId : Option (Option String)
  supportsRoleHierarchy : Option Bool
  historicalSnapshotDates : Option (List String)
deriving DecidableEq, Repr

/-- Report type as placed in the assembled document. -/
structure ReportTypeOut where
  type : String
  label : String
deriving DecidableEq, Repr

/-- The assembled `reportMetadata` body (`reportMetadataBody`). `none` means
the property was never assigned. -/
structure ReportBody where
  name : String
  folderId : Option String
  reportType : Option ReportTypeOut
  detailColumns : Option (List String)
  reportFilters : Option (List OutFilter)
  reportFormat : Option String
  id : Option String
  reportBooleanFilter : Option String
  developerName : String
  currency : Option (Option String)
  aggregates : Option (List String)
  groupingsDown : Option (List GroupingOut)
  groupingsAcross : Option (List GroupingIn)
  scope : String
  showGrandTotal : Option Bool
  showSubtotals : Option Bool
  hasDetailRows : Option Bool
  hasRecordCount : Option Bool
  division : Option (Option String)
  userOrHierarchyFilterId : Option (Option String)
  supportsRoleHierarchy : Option Bool
  historicalSnapshotDates : Option (List String)
deriving DecidableEq, Repr

/-- A record of the SOQL folder query results. -/
structure FolderRecord where
  Id : String
  Name : String
deriving DecidableEq, Repr

/-- The relevant shape of the creation endpoint response. -/
structure CreateResult where
  reportExtendedMetadata : Bool
  id : String
deriving DecidableEq, Repr

/-- The remote collaborators consumed by the handler. -/
structure SfEnv where
  queryFolderById : String → Except String (List FolderRecord)
  queryFolderByName : String → Except String (List FolderRecord)
  queryAnyReportFolder : Except String (List FolderRecord)
  describeReportType : DescribeFn
  createReport : ReportBody → Except String CreateResult

/-- The tool-response envelope `{content:[{type:"text",text}], isError}`. -/
structure ToolResponse where
  text : String
  isError : Bool
deriving DecidableEq, Repr

/-- Interpolation of a possibly-absent name into a SOQL template string:
an absent value prints as the text `undefined`. -/
def optToJsStringUndef : Option String → String
  | some s => s
  | none => "undefined"

/-- Default report-type label: `objectName + "s"` when `objectName` is a
string, else the text `Objects`. -/
def objectDefaultLabel : Option String → String
  | some o => o ++ "s"
  | none => "Objects"

/-- Default report-type name: `objectName + "List"` when `objectName` is a
string, else the text `ObjectList`. -/
def objectDefaultType : Option String → String
  | some o => o ++ "List"
  | none => "ObjectList"

/-! ## Folder resolution -/

/-- Model of step 1 of the handler: exact lookup by id when `folderId` is
truthy, else by name (an absent name interpolates as the text `undefined`),
then fallback to any folder of type Report; `none` when no report folder
exists at all. -/
def resolveFolder (env : SfEnv) (args : CreateReportArgs) :
    Except String (Option String) :=
  let firstQuery :=
    if strTruthy args.folderId then env.queryFolderById (args.folderId.getD "")
    else env.queryFolderByName (optToJsStringUndef args.folderName)
  match firstQuery with
  | .error e => .error e
  | .ok (r :: _) => .ok (some r.Id)
  | .ok [] =>
      match env.queryAnyReportFolder with
      | .error e => .error e
      | .ok (r :: _) => .ok (some r.Id)
      | .ok [] => .ok none

/-! ## Input merge -/

/-- The report type placed in the document: an explicit object with falsy
members defaulted from `objectName`, else derived from `objectName`, else
absent. -/
def assembleReportType (args : CreateReportArgs) : Option ReportTypeOut :=
  match args.reportType with
  | some rt =>
      let lbl :=
        match rt.label with
        | some l => if l = "" then objectDefaultLabel args.objectName else l
        | none => objectDefaultLabel args.objectName
      let tp :=
        match rt.type with
        | some t => if t = "" then objectDefaultType args.objectName else t
        | none => objectDefaultType args.objectName
      some { type := tp, label := lbl }
  | none =>
      match args.objectName with
      | some o => some { type := o ++ "List", label := o ++ "s" }
      | none => none

/-- The report-type object handed to `buildReportFieldMap`: the raw
`reportType` object when supplied, else one derived from `objectName`. -/
def reportTypeForMapping (args : CreateReportArgs) : Option ReportTypeIn :=
  match args.reportType with
  | some rt => some rt
  | none =>
      match args.objectName with
      | some o => some { type := some (o ++ "List"), label := some (o ++ "s") }
      | none => none

/-- The field maps used by the handler: empty when no report type object is
available for mapping, else the result of `buildReportFieldMap`. -/
def resolveFieldMaps (env : SfEnv) (args : CreateReportArgs) :
    Except String FieldMaps :=
  match reportTypeForMapping args with
  | none => .ok { fieldMap := [], fieldTypeMap := [], operatorMap := [] }
  | some rt => buildReportFieldMap env.describeReportType rt

/-- Canonicalization of a simplified-shape filter (the `filters` and
`reportMetadata.filters` branches). -/
def simplifiedToOut (maps : FieldMaps) (f : SimplifiedFilter) : OutFilter :=
  let col := mapToCanonicalReportField maps.fieldMap f.field
  { column := col,
    operator := normalizeOperatorForField maps.fieldTypeMap maps.operatorMap
      f.operator col,
    value := f.value }

/-- Canonicalization of a raw-shape filter from the direct `reportFilters`
argument (the column is mapped only when truthy). -/
def rawToOut (maps : FieldMaps) (f : RawFilter) : OutFilter :=
  let col :=
    if f.column = "" then f.column
    else mapToCanonicalReportField maps.fieldMap f.column
  { column := col,
    operator := normalizeOperatorForField maps.fieldTypeMap maps.operatorMap
      f.operator col,
    value := f.value }

/-- Canonicalization of a raw-shape filter from
`reportMetadata.reportFilters` (the column is mapped unconditionally). -/
def mdRawToOut (maps : FieldMaps) (f : RawFilter) : OutFilter :=
  let col := mapToCanonicalReportField maps.fieldMap f.column
  { column := col,
    operator := normalizeOperatorForField maps.fieldTypeMap maps.operatorMap
      f.operator col,
    value := f.value }

/-- The `detailColumns` attribute: simplified `columns` first, else raw
`detailColumns`, each validated as a batch and canonicalized. -/
def mergeColumns (maps : FieldMaps) (args : CreateReportArgs) :
    Except String (Option (List String)) :=
  match args.columns with
  | some (c :: cs) =>
      match throwIfInvalidFields (c :: cs) "column" maps.fieldMap with
      | .error e => .error e
      | .ok _ =>
          .ok (some ((c :: cs).map (mapToCanonicalReportField maps.fieldMap)))
  | _ =>
      match args.detailColumns with
      | some (c :: cs) =>
          match throwIfInvalidFields (c :: cs) "column" maps.fieldMap with
          | .error e => .error e
          | .ok _ =>
              .ok (some ((c :: cs).map (mapToCanonicalReportField maps.fieldMap)))
      | _ => .ok none

/-- The first two filter sources, in source order: simplified `filters`,
else raw `reportFilters`, each validated as a batch and canonicalized. -/
def mergeFiltersBase (maps : FieldMaps) (args : CreateReportArgs) :
    Except String (Option (List OutFilter)) :=
  match args.filters with
  | some (f :: fs) =>
      match throwIfInvalidFields ((f :: fs).map (fun f => f.field)) "filter"
          maps.fieldMap with
      | .error e => .error e
      | .ok _ => .ok (some ((f :: fs).map (simplifiedToOut maps)))
  | _ =>
      match args.reportFilters with
      | some (f :: fs) =>
          match throwIfInvalidFields ((f :: fs).map (fun f => f.column))
              "filter" maps.fieldMap with
          | .error e => .error e
          | .ok _ => .ok (some ((f :: fs).map (rawToOut maps)))
      | _ => .ok none

/-- The `reportFilters` attribute: the base sources, after which a supplied
nested metadata object with non-empty `filters` (else non-empty
`reportFilters`) overwrites the attribute, each chosen source being
batch-validated. -/
def mergeFilters (maps : FieldMaps) (args : CreateReportArgs) :
    Except String (Option (List OutFilter)) :=
  match mergeFiltersBase maps args with
  | .error e => .error e
  | .ok base =>
      match args.reportMetadata with
      | none => .ok base
      | some m =>
          match m.filters with
          | some (f :: fs) =>
              match throwIfInvalidFields ((f :: fs).map (fun f => f.field))
                  "filter" maps.fieldMap with
              | .error e => .error e
              | .ok _ => .ok (some ((f :: fs).map (simplifiedToOut maps)))
          | _ =>
              match m.reportFilters with
              | some (f :: fs) =>
                  match throwIfInvalidFields ((f :: fs).map (fun f => f.column))
                      "filter" maps.fieldMap with
                  | .error e => .error e
                  | .ok _ => .ok (some ((f :: fs).map (mdRawToOut maps)))
              | _ => .ok base

/-- One `groupingsDown` entry from the direct argument: the mapped name with
fallback to the raw name when the mapping is falsy, defaulted sort order and
granularity, and a mapped sort aggregate when truthy. -/
def groupInToOutDirect (fm : JsObj) (f : GroupingIn) : GroupingOut :=
  let mapped := mapToCanonicalReportField fm f.name
  { name := if mapped = "" then f.name else mapped,
    sortOrder :=
      match f.sortOrder with
      | some s => if s = "" then "Asc" else s
      | none => "Asc",
    sortAggregate :=
      match f.sortAggregate with
      | some s => if s = "" then none else some (mapToCanonicalReportField fm s)
      | none => none,
    dateGranularity :=
      match f.dateGranularity with
      | some s => if s = "" then "None" else s
      | none => "None" }

/-- One `groupingsDown` entry from the nested metadata object: like the
direct shape but with no fallback on the mapped name. -/
def groupInToOutNested (fm : JsObj) (f : GroupingIn) : GroupingOut :=
  { name := mapToCanonicalReportField fm f.name,
    sortOrder :=
      match f.sortOrder with
      | some s => if s = "" then "Asc" else s
      | none => "Asc",
    sortAggregate :=
      match f.sortAggregate with
      | some s => if s = "" then none else some (mapToCanonicalReportField fm s)
      | none => none,
    dateGranularity :=
      match f.dateGranularity with
      | some s => if s = "" then "None" else s
      | none => "None" }

/-- The `groupingsDown` attribute: the direct argument when non-empty, then
overwritten by a non-empty nested metadata `groupingsDown`. No validation is
performed on either source. -/
def mergeGroupingsDown (fm : JsObj) (args : CreateReportArgs) :
    Option (List GroupingOut) :=
  let base :=
    match args.groupingsDown with
    | some (g :: gs) => some ((g :: gs).map (groupInToOutDirect fm))
    | _ => none
  match args.reportMetadata with
  | some m =>
      match m.groupingsDown with
      | some (g :: gs) => some ((g :: gs).map (groupInToOutNested fm))
      | _ => base
  | none => base

/-- The `groupingsAcross` attribute: copied verbatim from the direct argument
when non-empty, then overwritten verbatim by a non-empty nested metadata
`groupingsAcross`. -/
def mergeGroupingsAcross (args : CreateReportArgs) : Option (List GroupingIn) :=
  let base :=
    match args.groupingsAcross with
    | some (g :: gs) => some (g :: gs)
    | _ => none
  match args.reportMetadata with
  | some m =>
      match m.groupingsAcross with
      | some (g :: gs) => some (g :: gs)
      | _ => base
  | none => base

/-- The `aggregates` attribute: the direct argument when non-empty, then
overwritten by a non-empty nested metadata `aggregates`. -/
def mergeAggregates (args : CreateReportArgs) : Option (List String) :=
  let base :=
    match args.aggregates with
    | some (a :: as') => some (a :: as')
    | _ => none
  match args.reportMetadata with
  | some m =>
      match m.aggregates with
      | some (a :: as') => some (a :: as')
      | _ => base
  | none => base

/-! ## Document assembly -/

/-- The fully assembled body, given the resolved folder label and maps and
the merged columns and filters. -/
def mkBody (args : CreateReportArgs) (folderLabel : Option String)
    (maps : FieldMaps) (cols : Option (List String))
    (filts : Option (List OutFilter)) : ReportBody :=
  { name := args.reportName,
    folderId := if strTruthy args.folderId then args.folderId else folderLabel,
    reportType := assembleReportType args,
    detailColumns := cols,
    reportFilters := filts,
    reportFormat := args.reportFormat.map jsToUpper,
    id := if strTruthy args.id then args.id else none,
    reportBooleanFilter := args.reportBooleanFilter,
    developerName :=
      match args.developerName with
      | some d => d
      | none => jsSanitizeDevName args.reportName,
    currency := args.currency,
    aggregates := mergeAggregates args,
    groupingsDown := mergeGroupingsDown maps.fieldMap args,
    groupingsAcross := mergeGroupingsAcross args,
    scope :=
      match args.scope with
      | some s => if s = "" then "organization" else s
      | none => "organization",
    showGrandTotal := args.showGrandTotal,
    showSubtotals := args.showSubtotals,
    hasDetailRows := args.hasDetailRows,
    hasRecordCount := args.hasRecordCount,
    division := args.division,
    userOrHierarchyFilterId := args.userOrHierarchyFilterId,
    supportsRoleHierarchy := args.supportsRoleHierarchy,
    historicalSnapshotDates :=
      match args.historicalSnapshotDates with
      | some (d :: ds) => some (d :: ds)
      | _ => none }

/-- The body of the try block of the handler up to (not including) the
creation POST: folder resolution, field-map construction, column merge and
filter merge, in source order, each failure aborting the assembly. -/
def assembleParts (env : SfEnv) (args : CreateReportArgs) :
    Except String (Option String × ReportBody) :=
  match resolveFolder env args with
  | .error e => .error e
  | .ok folderLabel =>
      match resolveFieldMaps env args with
      | .error e => .error e
      | .ok maps =>
          match mergeColumns maps args with
          | .error e => .error e
          | .ok cols =>
              match mergeFilters maps args with
              | .error e => .error e
              | .ok filts => .ok (folderLabel, mkBody args folderLabel maps cols filts)

/-- The assembled document alone. -/
def assembleReport (env : SfEnv) (args : CreateReportArgs) :
    Except String ReportBody :=
  (assembleParts env args).map (fun p => p.2)

/-- The whole try block: assembly, the creation POST, and the
success/failure envelope derived from the response. -/
def runCreate (env : SfEnv) (args : CreateReportArgs) :
    Except String ToolResponse :=
  match assembleParts env args with
  | .error e => .error e
  | .ok (folderLabel, body) =>
      match env.createReport body with
      | .error e => .error e
      | .ok result =>
          if result.reportExtendedMetadata then
            .ok { text := "Successfully created report \x27" ++ args.reportName
                    ++ "\x27 in folder \x27" ++ optToJsString folderLabel
                    ++ "\x27 (Id: " ++ result.id ++ ")",
                  isError := false }
          else
            .ok { text := "Failed to create report \x27" ++ args.reportName
                    ++ "\x27", isError := true }

/-- Model of `handleCreateReport`. The argument is destructured before the
try block: a missing or null `args` value throws a TypeError past the
function boundary, modeled by the outer `Except`; with an argument object
present, every failure of the try block is converted to the error
envelope. -/
def handleCreateReport (env : SfEnv) (argsOpt : Option CreateReportArgs) :
    Except String ToolResponse :=
  match argsOpt with
  | none =>
      .error "TypeError: Cannot destructure property \x27reportName\x27 of \x27args\x27 as it is undefined."
  | some args =>
      .ok (match runCreate env args with
        | .ok r => r
        | .error e => { text := "Error creating report: " ++ e, isError := true })

/-! ## Concrete scenarios used by witnesses and counterexamples -/

/-- A one-field account schema: detail column `ACCOUNT_NAME` labeled
`Account Name` of dataType `string`, with two string operators. -/
def descA : SchemaDescription :=
  { detailColumnInfo :=
      [("ACCOUNT_NAME", { label := some "Account Name", dataType := some "string" })],
    categories := [],
    dataTypeFilterOperatorMap :=
      [("string",
        [{ name := "equals", label := "Equals" },
         { name := "notEqual", label := "Does Not Equal" }])] }

/-- Arguments that never appear in any scenario: every optional member
absent. -/
def emptyArgs : CreateReportArgs :=
  { reportName := "", objectName := none, columns := none, filters := none,
    reportType := none, folderName := none, folderId := none, id := none,
    reportFormat := none, reportBooleanFilter := none, reportFilters := none,
    detailColumns := none, developerName := none, currency := none,
    aggregates := none, groupingsDown := none, groupingsAcross := none,
    reportMetadata := none, scope := none, showGrandTotal := none,
    showSubtotals := none, hasDetailRows := none, hasRecordCount := none,
    division := none, userOrHierarchyFilterId := none,
    supportsRoleHierarchy := none, historicalSnapshotDates := none }

/-- Environment A: no folder matches the name query, the organization has
one report folder `FOLDA`, the describe endpoint knows `AccountList`, and the
creation endpoint succeeds. -/
def envA : SfEnv :=
  { queryFolderById := fun _ => .ok [],
    queryFolderByName := fun _ => .ok [],
    queryAnyReportFolder := .ok [{ Id := "FOLDA", Name := "ReportFolder" }],
    describeReportType := fun t =>
      if t = "AccountList" then .ok descA else .error "NOT_FOUND",
    createReport := fun _ => .ok { reportExtendedMetadata := true, id := "00O1" } }

/-- The simplified filter supplied through the `filters` argument in
scenario A. -/
def filtA : SimplifiedFilter :=
  { field := "Account Name", operator := "equals", value := "Acme" }

/-- The simplified filter supplied through `reportMetadata.filters` in
scenario A. -/
def filtA2 : SimplifiedFilter :=
  { field := "Account Name", operator := "notEqual", value := "Other" }

/-- The nested metadata object of scenario A. -/
def mA : NestedMetadata :=
  { filters := some [filtA2], reportFilters := none, aggregates := none,
    groupingsDown := none, groupingsAcross := none }

/-- Arguments A: both a simplified `filters` argument and nested
`reportMetadata.filters` are supplied, no developer name, no folder
selector, and a grouping whose name is absent from the schema. -/
def argsA : CreateReportArgs :=
  { emptyArgs with
    reportName := "My Report!",
    objectName := some "Account",
    filters := some [filtA],
    reportMetadata := some mA,
    groupingsDown := some [⟨"BOGUS_GROUP", none, none, none⟩] }

/-- The field maps scenario A resolves to. -/
def mapsA : FieldMaps := buildFieldMapsFromDesc descA

/-- The document scenario A assembles. -/
def bodyA : ReportBody :=
  { name := "My Report!",
    folderId := some "FOLDA",
    reportType := some { type := "AccountList", label := "Accounts" },
    detailColumns := none,
    reportFilters := some [{ column := "ACCOUNT_NAME", operator := "notEqual", value := "Other" }],
    reportFormat := none,
    id := none,
    reportBooleanFilter := none,
    developerName := "My_Report_",
    currency := none,
    aggregates := none,
    groupingsDown := some [{ name := "BOGUS_GROUP", sortOrder := "Asc", sortAggregate := none, dateGranularity := "None" }],
    groupingsAcross := none,
    scope := "organization",
    showGrandTotal := none,
    showSubtotals := none,
    hasDetailRows := none,
    hasRecordCount := none,
    division := none,
    userOrHierarchyFilterId := none,
    supportsRoleHierarchy := none,
    historicalSnapshotDates := none }

/-- Environment B: the id lookup finds nothing, the organization has one
report folder `FALLBACK1`, describe and creation behave as in scenario A. -/
def envB : SfEnv :=
  { queryFolderById := fun _ => .ok [],
    queryFolderByName := fun _ => .ok [],
    queryAnyReportFolder := .ok [{ Id := "FALLBACK1", Name := "ReportFolder" }],
    describeReportType := fun t =>
      if t = "AccountList" then .ok descA else .error "NOT_FOUND",
    createReport := fun _ => .ok { reportExtendedMetadata := true, id := "00O2" } }

/-- Arguments B: a `folderId` that matches no folder, nothing else of
interest. -/
def argsB : CreateReportArgs :=
  { emptyArgs with
    reportName := "R2",
    objectName := some "Account",
    folderId := some "BOGUS123" }

/-- The document scenario B assembles. -/
def bodyB : ReportBody :=
  { name := "R2",
    folderId := some "BOGUS123",
    reportType := some { type := "AccountList", label := "Accounts" },
    detailColumns := none,
    reportFilters := none,
    reportFormat := none,
    id := none,
    reportBooleanFilter := none,
    developerName := "R2",
    currency := none,
    aggregates := none,
    groupingsDown := none,
    groupingsAcross := none,
    scope := "organization",
    showGrandTotal := none,
    showSubtotals := none,
    hasDetailRows := none,
    hasRecordCount := none,
    division := none,
    userOrHierarchyFilterId := none,
    supportsRoleHierarchy := none,
    historicalSnapshotDates := none }

instance instDecEqExcept {ε α : Type} [DecidableEq ε] [DecidableEq α] :
    DecidableEq (Except ε α) := fun a b =>
  match a, b with
  | .ok x, .ok y =>
      if h : x = y then isTrue (by rw [h])
      else isFalse (fun hh => by cases hh; exact h rfl)
  | .error x, .error y =>
      if h : x = y then isTrue (by rw [h])
      else isFalse (fun hh => by cases hh; exact h rfl)
  | .ok _, .error _ => isFalse (fun hh => by cases hh)
  | .error _, .ok _ => isFalse (fun hh => by cases hh)

/-- The three lookups of `mapToCanonicalReportField` all fail for `val`:
no truthy exact key, no truthy uppercased key, and no key whose trimmed
uppercase equals the uppercased input. This is the code-level meaning of
`val` having no case-insensitive mapping in the index. -/
def NoFieldMapping (fm : JsObj) (val : String) : Prop :=
  jsGetD fm val = "" ∧ jsGetD fm (jsToUpper val) = "" ∧
    fm.find? (fun kv => jsToUpper (jsTrim kv.1) = jsToUpper val) = none

instance (fm : JsObj) (val : String) : Decidable (NoFieldMapping fm val) := by
  unfold NoFieldMapping
  infer_instance

/-- Structural invariant of field maps built by `buildReportFieldMap` from a
schema without empty apiNames: every stored canonical value is non-empty and
its uppercase form is present as a key. -/
def GoodFieldMap (fm : JsObj) : Prop :=
  ∀ v ∈ jsValues fm, v ≠ "" ∧ (jsGet fm (jsToUpper v)).isSome = true

/-- Schema well-formedness: no column catalog entry has an empty apiName. -/
def SchemaKeysNonEmpty (desc : SchemaDescription) : Prop :=
  (∀ kv ∈ desc.detailColumnInfo, kv.1 ≠ "") ∧
    ∀ cat ∈ desc.categories, ∀ kv ∈ cat, kv.1 ≠ ""

instance (desc : SchemaDescription) : Decidable (SchemaKeysNonEmpty desc) := by
  unfold SchemaKeysNonEmpty
  infer_instance

/-- Replacement of every grouping input (direct arguments and the nested
metadata object) of an argument record, leaving all other members
untouched. -/
def setGroupings (args : CreateReportArgs) (gd ga mgd mga : Option (List GroupingIn)) :
    CreateReportArgs :=
  { args with
    groupingsDown := gd,
    groupingsAcross := ga,
    reportMetadata := args.reportMetadata.map
      (fun m => { m with groupingsDown := mgd, groupingsAcross := mga }) }

/-- Schema for the label-overwrite counterexample: the detail catalog has
apiName `X` labeled `L`; one category has apiName `Y` with the same label
`L`. -/
def descC3 : SchemaDescription :=
  { detailColumnInfo := [("X", { label := some "L", dataType := some "string" })],
    categories := [[("Y", { label := some "L", dataType := some "int" })]],
    dataTypeFilterOperatorMap := [] }

/-! ## General lemmas about the JavaScript-object model -/

theorem jsGet_nil (k : String) : jsGet [] k = none := rfl

theorem jsGet_cons (kv : String × String) (rest : JsObj) (k : String) :
    jsGet (kv :: rest) k = if kv.1 = k then some kv.2 else jsGet rest k := by
  unfold jsGet
  by_cases h : kv.1 = k
  · rw [List.find?_cons_of_pos _ (by simp [h]), if_pos h]
    rfl
  · rw [List.find?_cons_of_neg _ (by simp [h]), if_neg h]

theorem jsGet_jsSet (m : JsObj) (k v k' : String) :
    jsGet (jsSet m k v) k' = if k' = k then some v else jsGet m k' := by
  induction m with
  | nil =>
      show jsGet [(k, v)] k' = _
      rw [jsGet_cons]
      by_cases h : k' = k
      · simp [h]
      · have h1 : ¬ (k = k') := fun hh => h hh.symm
        simp [h, h1, jsGet_nil]
  | cons kv rest ih =>
      unfold jsSet
      by_cases hk : kv.1 = k
      · rw [if_pos hk, jsGet_cons, jsGet_cons]
        by_cases h : k' = k
        · simp [h]
        · have h1 : ¬ (k = k') := fun hh => h hh.symm
          have h2 : ¬ (kv.1 = k') := fun hh => h (by rw [← hh]; exact hk)
          simp [h, h1, h2]
      · rw [if_neg hk, jsGet_cons, jsGet_cons, ih]
        by_cases h2 : kv.1 = k'
        · have hne : ¬ k' = k := fun hh => hk (h2.trans hh)
          simp [h2, hne]
        · simp [h2]

theorem mem_jsValues_of_jsGet {m : JsObj} {k v : String}
    (h : jsGet m k = some v) : v ∈ jsValues m := by
  unfold jsGet at h
  rcases hf : m.find? (fun kv => kv.1 = k) with _ | kv
  · rw [hf] at h; exact absurd h (by simp)
  · rw [hf] at h
    have hkv : kv.2 = v := by simpa using h
    exact hkv ▸ List.mem_map_of_mem _ (List.mem_of_find?_eq_some hf)

theorem jsGet_of_jsGetD_ne {m : JsObj} {k : String} (h : jsGetD m k ≠ "") :
    jsGet m k = some (jsGetD m k) := by
  unfold jsGetD at *
  rcases hg : jsGet m k with _ | w
  · rw [hg] at h; simp at h
  · simp [hg]

theorem jsGet_isSome_jsSet {m : JsObj} {k' : String} (k v : String)
    (h : (jsGet m k').isSome = true) :
    (jsGet (jsSet m k v) k').isSome = true := by
  rw [jsGet_jsSet]
  by_cases hk : k' = k <;> simp [hk, h]

theorem mem_jsValues_jsSet {m : JsObj} {k v w : String}
    (h : w ∈ jsValues (jsSet m k v)) : w = v ∨ w ∈ jsValues m := by
  induction m with
  | nil =>
      simp only [jsSet, jsValues, List.map_cons, List.map_nil] at h
      exact Or.inl (by simpa using h)
  | cons kv rest ih =>
      by_cases hk : kv.1 = k
      · simp only [jsSet, if_pos hk, jsValues, List.map_cons] at h
        rcases List.mem_cons.mp h with h | h
        · exact Or.inl h
        · refine Or.inr ?_
          simp only [jsValues, List.map_cons, List.mem_cons]
          exact Or.inr h
      · simp only [jsSet, if_neg hk, jsValues, List.map_cons] at h
        rcases List.mem_cons.mp h with h | h
        · refine Or.inr ?_
          simp only [jsValues, List.map_cons, List.mem_cons]
          exact Or.inl h
        · rcases ih (by simpa [jsValues] using h) with h' | h'
          · exact Or.inl h'
          · refine Or.inr ?_
            simp only [jsValues, List.map_cons, List.mem_cons]
            exact Or.inr (by simpa [jsValues] using h')

theorem mem_jsSetElems {l : List String} {a : String} :
    a ∈ jsSetElems l ↔ a ∈ l := by
  have key : ∀ (l : List String) (acc : List String),
      a ∈ l.foldl (fun acc a => if a ∈ acc then acc else acc ++ [a]) acc ↔
        a ∈ acc ∨ a ∈ l := by
    intro l
    induction l with
    | nil => intro acc; simp
    | cons b rest ih =>
        intro acc
        by_cases hb : b ∈ acc
        · simp only [List.foldl_cons, if_pos hb, ih]
          constructor
          · rintro (h | h)
            · exact Or.inl h
            · exact Or.inr (List.mem_cons_of_mem _ h)
          · rintro (h | h)
            · exact Or.inl h
            · rcases List.mem_cons.mp h with h | h
              · exact Or.inl (h ▸ hb)
              · exact Or.inr h
        · simp only [List.foldl_cons, if_neg hb, ih, List.mem_append,
            List.mem_singleton, List.mem_cons]
          tauto
  simpa using key l []

/-! ## Substring lemmas for the validation message -/

theorem strContains_appL {t u : String} (s : String) (h : strContains t u) :
    strContains (s ++ t) u := by
  unfold strContains at *
  have : (s ++ t).data = s.data ++ t.data := rfl
  rw [this]
  exact h.trans (List.suffix_append s.data t.data).isInfix

theorem strContains_appR {s u : String} (t : String) (h : strContains s u) :
    strContains (s ++ t) u := by
  unfold strContains at *
  have : (s ++ t).data = s.data ++ t.data := rfl
  rw [this]
  exact h.trans (List.prefix_append s.data t.data).isInfix

theorem strContains_self (s : String) : strContains s s :=
  List.infix_refl s.data

theorem strContains_joinComma {l : List String} {a : String} (h : a ∈ l) :
    strContains (joinComma l) a := by
  induction l with
  | nil => cases h
  | cons b rest ih =>
      rcases List.mem_cons.mp h with h | h
      · subst h
        cases rest with
        | nil => exact strContains_self a
        | cons c cs =>
            show strContains (a ++ ", " ++ joinComma (c :: cs)) a
            exact strContains_appR _ (strContains_appR _ (strContains_self a))
      · cases rest with
        | nil => cases h
        | cons c cs =>
            show strContains (b ++ ", " ++ joinComma (c :: cs)) a
            exact strContains_appL _ (ih h)

theorem strContains_validationMessage_requested (requested kind : String)
    (allowed : List String) :
    strContains (validationMessage requested kind allowed) requested := by
  unfold validationMessage
  exact strContains_appR _ (strContains_appR _ (strContains_appR _
    (strContains_appR _ (strContains_appR _
      (strContains_appL _ (strContains_self requested))))))

theorem strContains_validationMessage_allowed {requested kind : String}
    {allowed : List String} {v : String} (h : v ∈ allowed) :
    strContains (validationMessage requested kind allowed) v := by
  unfold validationMessage
  exact strContains_appR _ (strContains_appL _ (strContains_joinComma h))

/-! ## Idempotence of the uppercase model -/

theorem charOfNat_toNat {n : Nat} (h : n.isValidChar) :
    (Char.ofNat n).toNat = n := by
  have hlt : n < 2 ^ 32 := by rcases h with h | h <;> omega
  simp [Char.ofNat, dif_pos h, Char.ofNatAux, Char.toNat, UInt32.toNat]

theorem jsCharUpper_idem (c : Char) : jsCharUpper (jsCharUpper c) = jsCharUpper c := by
  by_cases h : c.toNat ≥ 97 ∧ c.toNat ≤ 122
  · have h1 : jsCharUpper c = Char.ofNat (c.toNat - 32) := by
      simp only [jsCharUpper]
      rw [if_pos h]
    have hv : (c.toNat - 32).isValidChar := Or.inl (by omega)
    have ht : (Char.ofNat (c.toNat - 32)).toNat = c.toNat - 32 := charOfNat_toNat hv
    rw [h1]
    simp only [jsCharUpper]
    rw [ht, if_neg (by omega)]
  · have h1 : jsCharUpper c = c := by
      simp only [jsCharUpper]
      rw [if_neg h]
    rw [h1]
    exact h1

theorem jsToUpper_idem (s : String) : jsToUpper (jsToUpper s) = jsToUpper s := by
  unfold jsToUpper
  simp only [List.map_map]
  exact congrArg String.mk (List.map_congr_left (fun c _ => jsCharUpper_idem c))

/-! ## Invariant of built field maps -/

theorem goodFieldMap_nil : GoodFieldMap [] := by
  intro v hv
  cases hv

theorem goodFieldMap_write {m : JsObj} (hG : GoodFieldMap m) {key : String}
    (hk : key ≠ "") : GoodFieldMap (jsSet m (jsToUpper key) key) := by
  intro v hv
  rcases mem_jsValues_jsSet hv with h | h
  · subst h
    refine ⟨hk, ?_⟩
    rw [jsGet_jsSet, if_pos rfl]
    rfl
  · obtain ⟨hne, hs⟩ := hG v h
    exact ⟨hne, jsGet_isSome_jsSet _ _ hs⟩

theorem goodFieldMap_write_alias {m : JsObj} (hG : GoodFieldMap m)
    {key : String} (hk : key ≠ "")
    (hkey : (jsGet m (jsToUpper key)).isSome = true) (k2 : String) :
    GoodFieldMap (jsSet m k2 key) := by
  intro v hv
  rcases mem_jsValues_jsSet hv with h | h
  · subst h
    exact ⟨hk, jsGet_isSome_jsSet _ _ hkey⟩
  · obtain ⟨hne, hs⟩ := hG v h
    exact ⟨hne, jsGet_isSome_jsSet _ _ hs⟩

theorem registerEntry_good {st : JsObj × JsObj} (hG : GoodFieldMap st.1)
    {key : String} (hk : key ≠ "") (info : ColumnInfo) :
    GoodFieldMap (registerEntry st key info).1 := by
  have hfm : GoodFieldMap (jsSet st.1 (jsToUpper key) key) := goodFieldMap_write hG hk
  have hkey : (jsGet (jsSet st.1 (jsToUpper key) key) (jsToUpper key)).isSome = true := by
    rw [jsGet_jsSet, if_pos rfl]
    rfl
  rcases hl : info.label with _ | lbl
  · have he : (registerEntry st key info).1 = jsSet st.1 (jsToUpper key) key := by
      simp [registerEntry, hl]
    rw [he]
    exact hfm
  · by_cases hlen : lbl.length ≠ 0
    · have he : (registerEntry st key info).1 =
          jsSet (jsSet st.1 (jsToUpper key) key) (jsToUpper lbl) key := by
        simp [registerEntry, hl, hlen]
      rw [he]
      exact goodFieldMap_write_alias hfm hk hkey _
    · have he : (registerEntry st key info).1 = jsSet st.1 (jsToUpper key) key := by
        simp [registerEntry, hl, hlen]
      rw [he]
      exact hfm

theorem registerCategoryEntry_good {st : JsObj × JsObj} (hG : GoodFieldMap st.1)
    {key : String} (hk : key ≠ "") (info : ColumnInfo) :
    GoodFieldMap (registerCategoryEntry st key info).1 := by
  unfold registerCategoryEntry
  by_cases h : jsGetD st.1 (jsToUpper key) ≠ ""
  · rw [if_pos h]
    exact hG
  · rw [if_neg h]
    exact registerEntry_good hG hk info

theorem foldl_registerEntry_good {entries : List (String × ColumnInfo)}
    {st : JsObj × JsObj} (hG : GoodFieldMap st.1)
    (h : ∀ kv ∈ entries, kv.1 ≠ "") :
    GoodFieldMap ((entries.foldl (fun st kv => registerEntry st kv.1 kv.2) st).1) := by
  induction entries generalizing st with
  | nil => simpa using hG
  | cons kv rest ih =>
      simp only [List.foldl_cons]
      exact ih (registerEntry_good hG (h kv (List.mem_cons_self _ _)) kv.2)
        (fun x hx => h x (List.mem_cons_of_mem _ hx))

theorem foldl_registerCategoryEntry_good {entries : List (String × ColumnInfo)}
    {st : JsObj × JsObj} (hG : GoodFieldMap st.1)
    (h : ∀ kv ∈ entries, kv.1 ≠ "") :
    GoodFieldMap ((entries.foldl (fun st kv => registerCategoryEntry st kv.1 kv.2) st).1) := by
  induction entries generalizing st with
  | nil => simpa using hG
  | cons kv rest ih =>
      simp only [List.foldl_cons]
      exact ih (registerCategoryEntry_good hG (h kv (List.mem_cons_self _ _)) kv.2)
        (fun x hx => h x (List.mem_cons_of_mem _ hx))

theorem foldl_categories_good {cats : List (List (String × ColumnInfo))}
    {st : JsObj × JsObj} (hG : GoodFieldMap st.1)
    (h : ∀ cat ∈ cats, ∀ kv ∈ cat, kv.1 ≠ "") :
    GoodFieldMap ((cats.foldl
      (fun st cat => cat.foldl
        (fun st kv => registerCategoryEntry st kv.1 kv.2) st) st).1) := by
  induction cats generalizing st with
  | nil => simpa using hG
  | cons cat rest ih =>
      simp only [List.foldl_cons]
      exact ih (foldl_registerCategoryEntry_good hG (h cat (List.mem_cons_self _ _)))
        (fun c hc => h c (List.mem_cons_of_mem _ hc))

theorem buildFieldMaps_good {desc : SchemaDescription}
    (hkeys : SchemaKeysNonEmpty desc) :
    GoodFieldMap (buildFieldMapsFromDesc desc).fieldMap := by
  unfold buildFieldMapsFromDesc
  exact foldl_categories_good (foldl_registerEntry_good goodFieldMap_nil hkeys.1) hkeys.2

/-! ## Resolution lemmas -/

theorem mapToCanonical_of_noMapping {fm : JsObj} {val : String} (hval : val ≠ "")
    (h : NoFieldMapping fm val) :
    mapToCanonicalReportField fm val = jsToUpper val := by
  obtain ⟨h1, h2, h3⟩ := h
  simp only [mapToCanonicalReportField]
  rw [if_neg hval, if_neg (not_not_intro h1), if_neg (not_not_intro h2), h3]

theorem mapToCanonical_mem_of_mapping {fm : JsObj} {val : String} (hval : val ≠ "")
    (h : ¬ NoFieldMapping fm val) :
    mapToCanonicalReportField fm val ∈ jsValues fm := by
  simp only [mapToCanonicalReportField]
  rw [if_neg hval]
  by_cases h1 : jsGetD fm val ≠ ""
  · rw [if_pos h1]
    exact mem_jsValues_of_jsGet (jsGet_of_jsGetD_ne h1)
  · rw [if_neg h1]
    by_cases h2 : jsGetD fm (jsToUpper val) ≠ ""
    · rw [if_pos h2]
      exact mem_jsValues_of_jsGet (jsGet_of_jsGetD_ne h2)
    · rw [if_neg h2]
      rcases h3 : fm.find? (fun kv => jsToUpper (jsTrim kv.1) = jsToUpper val) with _ | kv
      · exact absurd ⟨of_not_not h1, of_not_not h2, h3⟩ h
      · simp only [h3]
        exact List.mem_map_of_mem _ (List.mem_of_find?_eq_some h3)

theorem upper_not_mem_values {fm : JsObj} {val : String}
    (hG : GoodFieldMap fm) (hnm : NoFieldMapping fm val) :
    jsToUpper val ∉ jsValues fm := by
  intro hmem
  obtain ⟨_, hsome⟩ := hG _ hmem
  rw [jsToUpper_idem] at hsome
  obtain ⟨w, hw⟩ := Option.isSome_iff_exists.mp hsome
  have hmemw : w ∈ jsValues fm := mem_jsValues_of_jsGet hw
  have hwne : w ≠ "" := (hG _ hmemw).1
  have hval : jsGetD fm (jsToUpper val) = w := by
    unfold jsGetD
    rw [hw]
    rfl
  exact hwne (by rw [← hval, hnm.2.1])

theorem checkFields_error {fm : JsObj} (kind : String) {arr : List String}
    {bad : String} (hG : GoodFieldMap fm) (hbad : bad ∈ arr) (hbne : bad ≠ "")
    (hnm : NoFieldMapping fm bad) :
    ∃ off, firstNoMapping fm (jsSetElems (jsValues fm)) arr = some off ∧
      checkFields fm kind (jsSetElems (jsValues fm)) arr =
        .error (validationMessage off kind (jsSetElems (jsValues fm))) ∧
      off ∈ arr ∧ off ≠ "" ∧ NoFieldMapping fm off := by
  induction arr with
  | nil => cases hbad
  | cons r rest ih =>
      by_cases hr : r = ""
      · have hbadr : bad ∈ rest := by
          rcases List.mem_cons.mp hbad with h | h
          · exact absurd (h.trans hr) hbne
          · exact h
        obtain ⟨off, h1, h2, h3, h4, h5⟩ := ih hbadr
        refine ⟨off, ?_, ?_, List.mem_cons_of_mem _ h3, h4, h5⟩
        · simpa [firstNoMapping, hr] using h1
        · simpa [checkFields, hr] using h2
      · by_cases hmem : mapToCanonicalReportField fm r ∈ jsSetElems (jsValues fm)
        · have hbadr : bad ∈ rest := by
            rcases List.mem_cons.mp hbad with h | h
            · subst h
              have heq := mapToCanonical_of_noMapping hbne hnm
              rw [heq] at hmem
              exact absurd (mem_jsSetElems.mp hmem) (upper_not_mem_values hG hnm)
            · exact h
          obtain ⟨off, h1, h2, h3, h4, h5⟩ := ih hbadr
          refine ⟨off, ?_, ?_, List.mem_cons_of_mem _ h3, h4, h5⟩
          · simpa [firstNoMapping, hr, hmem] using h1
          · simpa [checkFields, hr, hmem] using h2
        · refine ⟨r, ?_, ?_, List.mem_cons_self _ _, hr, ?_⟩
          · simp [firstNoMapping, hr, hmem]
          · simp [checkFields, hr, hmem]
          · by_contra hno
            exact hmem (mem_jsSetElems.mpr (mapToCanonical_mem_of_mapping hr hno))

/-! ## Pipeline lemmas -/

theorem exceptOk_map {ε α β : Type} (f : α → β) (x : Except ε α) :
    exceptOk (Except.map f x) = exceptOk x := by
  cases x <;> rfl

theorem assembleReport_ok_elim {env : SfEnv} {args : CreateReportArgs}
    {body : ReportBody} (hok : assembleReport env args = .ok body) :
    ∃ fl maps cols filts,
      resolveFolder env args = .ok fl ∧
      resolveFieldMaps env args = .ok maps ∧
      mergeColumns maps args = .ok cols ∧
      mergeFilters maps args = .ok filts ∧
      body = mkBody args fl maps cols filts := by
  simp only [assembleReport, assembleParts] at hok
  rcases h1 : resolveFolder env args with e | fl
  · simp only [h1, Except.map] at hok
    exact Except.noConfusion hok
  · simp only [h1] at hok
    rcases h2 : resolveFieldMaps env args with e | maps
    · simp only [h2, Except.map] at hok
      exact Except.noConfusion hok
    · simp only [h2] at hok
      rcases h3 : mergeColumns maps args with e | cols
      · simp only [h3, Except.map] at hok
        exact Except.noConfusion hok
      · simp only [h3] at hok
        rcases h4 : mergeFilters maps args with e | filts
        · simp only [h4, Except.map] at hok
          exact Except.noConfusion hok
        · simp only [h4, Except.map, Except.ok.injEq] at hok
          exact ⟨fl, maps, cols, filts, rfl, rfl, h3, h4, hok.symm⟩

theorem assembleParts_congr (env : SfEnv) (a b : CreateReportArgs)
    (hfold : resolveFolder env a = resolveFolder env b)
    (hmaps : resolveFieldMaps env a = resolveFieldMaps env b)
    (hcols : ∀ maps, mergeColumns maps a = mergeColumns maps b)
    (hfilts : ∀ maps, mergeFilters maps a = mergeFilters maps b) :
    exceptOk (assembleParts env a) = exceptOk (assembleParts env b) := by
  simp only [assembleParts, hfold, hmaps, hcols, hfilts]
  cases h1 : resolveFolder env b <;> simp only [h1]
  case ok fl =>
    cases h2 : resolveFieldMaps env b <;> simp only [h2]
    case ok maps =>
      cases h3 : mergeColumns maps b <;> simp only [h3]
      case ok cols =>
        cases h4 : mergeFilters maps b <;> simp only [h4]
        case ok filts => rfl

/-! ## Claim theorems -/

/-- C3 (counterexample): the claim that an entry registered from an earlier
source is never overwritten by a later source fails for label keys. In
`descC3` the detail catalog registers label key `L` for apiName `X`, yet the
final field map sends `L` to the category apiName `Y`: the category entry was
accepted because its own apiName key `Y` was fresh, and its label write
overwrote `L` unconditionally. -/
theorem buildFieldMap_label_overwritten :
    jsGet ((descC3.detailColumnInfo.foldl
      (fun st kv => registerEntry st kv.1 kv.2) ([], [])).1) "L" = some "X" ∧
    jsGet (buildFieldMapsFromDesc descC3).fieldMap "L" = some "Y" ∧
    some "Y" ≠ some "X" := by
  refine ⟨by decide, by decide, by decide⟩

/-- C3 (amended): the no-overwrite guard protects exactly the uppercased
apiName key: a category entry whose uppercased apiName is already truthy in
the field map is skipped entirely, leaving both maps unchanged; an accepted
category entry, however, writes its apiName and label keys unconditionally,
so an earlier label-derived entry can be overwritten (see the
counterexample). -/
theorem categoryEntry_skipped_when_key_present (st : JsObj × JsObj)
    (key : String) (info : ColumnInfo)
    (h : jsGetD st.1 (jsToUpper key) ≠ "") :
    registerCategoryEntry st key info = st := by
  unfold registerCategoryEntry
  rw [if_pos h]

/-- Witness for the amended C3 theorem at a concrete map already holding the
uppercased key. -/
theorem categoryEntry_skipped_when_key_present_witness :
    jsGetD [("X", "X")] (jsToUpper "x") ≠ "" ∧
    registerCategoryEntry ([("X", "X")], [("X", "string")]) "x"
      { label := some "L", dataType := some "int" } = ([("X", "X")], [("X", "string")]) :=
  ⟨by decide, categoryEntry_skipped_when_key_present _ _ _ (by decide)⟩

/-- C4: for a non-empty operator input that matches no valid operator name
and no label under normalization, `normalizeOperatorForField` never fails:
with no valid operators (unknown dataType included) the input is returned
unchanged; with a non-empty valid list whose first name is non-empty, the
input is returned unchanged when it exactly equals a canonical name and the
first valid operator is returned otherwise. -/
theorem normalizeOperator_fallback (ftm : JsObj)
    (om : List (String × List OperatorEntry)) (op column : String)
    (hop : op ≠ "")
    (hname : ∀ v ∈ getValidOperatorsForField ftm om column,
      jsNormalizeOp op ≠ jsToLower v)
    (hlabel : ∀ o ∈ (omGet om (jsGetD ftm (jsToUpper column))).getD [],
      jsNormalizeOp op ≠ jsNormalizeOp o.label) :
    (getValidOperatorsForField ftm om column = [] →
      normalizeOperatorForField ftm om op column = op) ∧
    (∀ v0 vs, getValidOperatorsForField ftm om column = v0 :: vs → v0 ≠ "" →
      normalizeOperatorForField ftm om op column =
        if (v0 :: vs).contains op then op else v0) := by
  constructor
  · intro hempty
    simp only [normalizeOperatorForField]
    rw [if_neg hop, hempty]
  · intro v0 vs hv hne
    rw [hv] at hname
    have hfind : (v0 :: vs).find? (fun v => jsNormalizeOp op = jsToLower v) = none :=
      List.find?_eq_none.mpr (fun v hv' => by simpa using hname v hv')
    have hfind2 : ((omGet om (jsGetD ftm (jsToUpper column))).getD []).find?
        (fun o => jsNormalizeOp op = jsNormalizeOp o.label) = none :=
      List.find?_eq_none.mpr (fun o ho => by simpa using hlabel o ho)
    simp only [normalizeOperatorForField, hv]
    rw [if_neg hop, hfind, hfind2]
    by_cases hc : (v0 :: vs).contains op = true
    · rw [if_pos hc, if_pos hc]
    · rw [if_neg hc, if_neg hc, if_neg hne]

/-- Witness for C4: against the scenario-A schema, the unrecognized operator
`bogus` on the field `Account Name` falls back to the first valid operator
`equals`. -/
theorem normalizeOperator_fallback_witness :
    ("bogus" : String) ≠ "" ∧
    (∀ v ∈ getValidOperatorsForField mapsA.fieldTypeMap mapsA.operatorMap "Account Name",
      jsNormalizeOp "bogus" ≠ jsToLower v) ∧
    (∀ o ∈ (omGet mapsA.operatorMap
        (jsGetD mapsA.fieldTypeMap (jsToUpper "Account Name"))).getD [],
      jsNormalizeOp "bogus" ≠ jsNormalizeOp o.label) ∧
    getValidOperatorsForField mapsA.fieldTypeMap mapsA.operatorMap "Account Name" =
      "equals" :: ["notEqual"] ∧
    normalizeOperatorForField mapsA.fieldTypeMap mapsA.operatorMap "bogus" "Account Name" =
      if ("equals" :: ["notEqual"]).contains "bogus" then "bogus" else "equals" :=
  ⟨by decide, by decide, by decide, by decide,
    (normalizeOperator_fallback mapsA.fieldTypeMap mapsA.operatorMap "bogus"
      "Account Name" (by decide) (by decide) (by decide)).2
      "equals" ["notEqual"] (by decide) (by decide)⟩

/-- C8: for a field whose dataType resolves to the operator list
equals/notEqual, the inputs `does not equal`, `DOES_NOT_EQUAL` and
`notequal` all normalize to the canonical name `notEqual`: the input is
lower-cased, whitespace and underscores are stripped, and it is compared
against the names and then the labels of the valid operators. -/
theorem normalizeOperator_notEqual (ftm : JsObj)
    (om : List (String × List OperatorEntry)) (column dt : String)
    (hcol : column ≠ "")
    (htype : jsGetD ftm (jsToUpper column) = dt) (hdt : dt ≠ "")
    (hops : omGet om dt = some
      [{ name := "equals", label := "Equals" },
       { name := "notEqual", label := "Does Not Equal" }]) :
    normalizeOperatorForField ftm om "does not equal" column = "notEqual" ∧
    normalizeOperatorForField ftm om "DOES_NOT_EQUAL" column = "notEqual" ∧
    normalizeOperatorForField ftm om "notequal" column = "notEqual" := by
  have hv : getValidOperatorsForField ftm om column = ["equals", "notEqual"] := by
    simp only [getValidOperatorsForField]
    rw [if_neg hcol, htype, if_neg hdt, hops]
    rfl
  refine ⟨?_, ?_, ?_⟩ <;>
  · simp only [normalizeOperatorForField, hv, htype, hops]
    rfl

/-- Witness for C8 at the scenario-A schema and the field `Account Name`. -/
theorem normalizeOperator_notEqual_witness :
    ("Account Name" : String) ≠ "" ∧
    jsGetD mapsA.fieldTypeMap (jsToUpper "Account Name") = "string" ∧
    ("string" : String) ≠ "" ∧
    omGet mapsA.operatorMap "string" = some
      [{ name := "equals", label := "Equals" },
       { name := "notEqual", label := "Does Not Equal" }] ∧
    (normalizeOperatorForField mapsA.fieldTypeMap mapsA.operatorMap
        "does not equal" "Account Name" = "notEqual" ∧
      normalizeOperatorForField mapsA.fieldTypeMap mapsA.operatorMap
        "DOES_NOT_EQUAL" "Account Name" = "notEqual" ∧
      normalizeOperatorForField mapsA.fieldTypeMap mapsA.operatorMap
        "notequal" "Account Name" = "notEqual") :=
  ⟨by decide, by decide, by decide, by decide,
    normalizeOperator_notEqual mapsA.fieldTypeMap mapsA.operatorMap
      "Account Name" "string" (by decide) (by decide) (by decide) (by decide)⟩

/-- C6 (counterexample): with no argument object at all the handler throws a
TypeError from the destructuring that precedes the try block, so the failure
escapes the function boundary instead of becoming an error envelope. -/
theorem handleCreateReport_throws_on_missing_args :
    exceptOk (handleCreateReport envA none) = false := rfl

/-- C6 (amended): for every present argument object the handler never throws
past its boundary: the entire try block is converted to the success/failure
envelope, so the result is always an `ok` envelope value. -/
theorem handleCreateReport_never_throws (env : SfEnv) (args : CreateReportArgs) :
    exceptOk (handleCreateReport env (some args)) = true := rfl

/-- C9: when no developer name is supplied, the assembled document derives it
from the report name by replacing every character outside `[A-Za-z0-9_]`
with an underscore — in particular `My Report!` becomes `My_Report_` — and a
supplied developer name is used unchanged. -/
theorem developerName_derivation (env : SfEnv) (args : CreateReportArgs)
    (body : ReportBody) (hok : assembleReport env args = .ok body) :
    (args.developerName = none →
      body.developerName = jsSanitizeDevName args.reportName) ∧
    (∀ d, args.developerName = some d → body.developerName = d) ∧
    jsSanitizeDevName "My Report!" = "My_Report_" := by
  obtain ⟨fl, maps, cols, filts, _, _, _, _, hbody⟩ := assembleReport_ok_elim hok
  subst hbody
  refine ⟨?_, ?_, by decide⟩
  · intro h
    simp [mkBody, h]
  · intro d h
    simp [mkBody, h]

/-- Witness for C9 at scenario A, where no developer name is supplied. -/
theorem developerName_derivation_witness :
    assembleReport envA argsA = .ok bodyA ∧
    argsA.developerName = none ∧
    bodyA.developerName = jsSanitizeDevName argsA.reportName :=
  ⟨by decide, rfl,
    (developerName_derivation envA argsA bodyA (by decide)).1 rfl⟩

/-- C10: a truthy `folderId` argument is copied into the assembled document
verbatim, overwriting whatever folder reference the resolution step
produced. -/
theorem folderId_argument_overwrites (env : SfEnv) (args : CreateReportArgs)
    (fid : String) (body : ReportBody)
    (hfid : args.folderId = some fid) (hne : fid ≠ "")
    (hok : assembleReport env args = .ok body) :
    body.folderId = some fid := by
  obtain ⟨fl, maps, cols, filts, _, _, _, _, hbody⟩ := assembleReport_ok_elim hok
  subst hbody
  simp [mkBody, strTruthy, hfid, hne]

/-- Witness for C10 at scenario B: the supplied id `BOGUS123` matches no
folder and the fallback resolved `FALLBACK1`, yet the document carries the
raw argument. -/
theorem folderId_argument_overwrites_witness :
    argsB.folderId = some "BOGUS123" ∧
    ("BOGUS123" : String) ≠ "" ∧
    assembleReport envB argsB = .ok bodyB ∧
    bodyB.folderId = some "BOGUS123" :=
  ⟨rfl, by decide, by decide,
    folderId_argument_overwrites envB argsB "BOGUS123" bodyB rfl (by decide) (by decide)⟩

/-- C5 (counterexample): in scenario B neither the given folderId nor a
folder name matches, and a report folder `FALLBACK1` exists, but the
assembled folder reference is the raw argument `BOGUS123`, not the fallback
folder id the claim requires. -/
theorem folder_fallback_not_in_document :
    envB.queryFolderById "BOGUS123" = .ok [] ∧
    envB.queryAnyReportFolder =
      .ok [{ Id := "FALLBACK1", Name := "ReportFolder" }] ∧
    assembleReport envB argsB = .ok bodyB ∧
    bodyB.folderId = some "BOGUS123" ∧
    bodyB.folderId ≠ some "FALLBACK1" := by
  refine ⟨rfl, rfl, by decide, by decide, by decide⟩

/-- C5 (amended): when the `folderId` argument is absent or empty and the
name lookup finds nothing, resolution is soft: with at least one report
folder in the organization the document carries the first one, with none the
folder reference is absent, and in both cases assembly proceeds — the folder
step itself never aborts the call. -/
theorem folder_fallback_soft (env : SfEnv) (args : CreateReportArgs)
    (l : List FolderRecord)
    (hid : strTruthy args.folderId = false)
    (hname : env.queryFolderByName (optToJsStringUndef args.folderName) = .ok [])
    (hany : env.queryAnyReportFolder = .ok l) :
    resolveFolder env args = .ok (l.head?.map (fun r => r.Id)) ∧
    ∀ body, assembleReport env args = .ok body →
      body.folderId = l.head?.map (fun r => r.Id) := by
  have hres : resolveFolder env args = .ok (l.head?.map (fun r => r.Id)) := by
    simp only [resolveFolder, hid, Bool.false_eq_true, if_false, hname, hany]
    cases l <;> rfl
  refine ⟨hres, ?_⟩
  intro body hok
  obtain ⟨fl, maps, cols, filts, hfl, _, _, _, hbody⟩ := assembleReport_ok_elim hok
  have hfleq : fl = l.head?.map (fun r => r.Id) := by
    rw [hfl] at hres
    injection hres
  subst hbody
  simp [mkBody, hid, hfleq]

/-- Witness for the amended C5 at scenario A: no folder selector is given,
the name query finds nothing, and the document carries the single existing
report folder `FOLDA`. -/
theorem folder_fallback_soft_witness :
    strTruthy argsA.folderId = false ∧
    envA.queryFolderByName (optToJsStringUndef argsA.folderName) = .ok [] ∧
    envA.queryAnyReportFolder =
      .ok [{ Id := "FOLDA", Name := "ReportFolder" }] ∧
    resolveFolder envA argsA =
      .ok (([{ Id := "FOLDA", Name := "ReportFolder" }] :
        List FolderRecord).head?.map (fun r => r.Id)) ∧
    bodyA.folderId =
      ([{ Id := "FOLDA", Name := "ReportFolder" }] :
        List FolderRecord).head?.map (fun r => r.Id) :=
  ⟨rfl, rfl, rfl,
    (folder_fallback_soft envA argsA _ rfl rfl rfl).1,
    (folder_fallback_soft envA argsA _ rfl rfl rfl).2 bodyA (by decide)⟩

/-- C1 (counterexample): in scenario A both the simplified `filters`
argument and `reportMetadata.filters` are supplied, yet the assembled filter
list is the one derived from the nested metadata (`notEqual`/`Other`), not
the canonicalized simplified list (`equals`/`Acme`). -/
theorem simplified_filters_not_preferred :
    assembleReport envA argsA = .ok bodyA ∧
    bodyA.reportFilters =
      some [{ column := "ACCOUNT_NAME", operator := "notEqual", value := "Other" }] ∧
    (argsA.filters.getD []).map (simplifiedToOut mapsA) =
      [{ column := "ACCOUNT_NAME", operator := "equals", value := "Acme" }] ∧
    bodyA.reportFilters ≠
      some ((argsA.filters.getD []).map (simplifiedToOut mapsA)) := by
  refine ⟨by decide, by decide, by decide, by decide⟩

/-- C1 (amended): a supplied nested metadata object with a non-empty
simplified-shape `filters` list always determines the assembled filter list:
its canonicalized form overwrites whatever the simplified or raw filter
arguments populated earlier; those arguments win only when the nested
metadata supplies no filters. -/
theorem metadata_filters_overwrite (env : SfEnv) (args : CreateReportArgs)
    (m : NestedMetadata) (maps : FieldMaps) (f : SimplifiedFilter)
    (fs : List SimplifiedFilter) (body : ReportBody)
    (hm : args.reportMetadata = some m)
    (hf : m.filters = some (f :: fs))
    (hmaps : resolveFieldMaps env args = .ok maps)
    (hok : assembleReport env args = .ok body) :
    body.reportFilters = some ((f :: fs).map (simplifiedToOut maps)) := by
  obtain ⟨fl, maps', cols, filts, hfl, hmaps', hcols, hfilts, hbody⟩ :=
    assembleReport_ok_elim hok
  have hmeq : maps' = maps := by
    rw [hmaps'] at hmaps
    injection hmaps
  subst hmeq
  subst hbody
  simp only [mergeFilters, hm, hf] at hfilts
  rcases hb : mergeFiltersBase maps' args with e | b
  · simp only [hb] at hfilts
    exact Except.noConfusion hfilts
  · simp only [hb] at hfilts
    rcases hv : throwIfInvalidFields ((f :: fs).map (fun x => x.field)) "filter"
        maps'.fieldMap with e | u
    · simp only [hv] at hfilts
      exact Except.noConfusion hfilts
    · simp only [hv] at hfilts
      injection hfilts with hinj
      simp only [mkBody]
      exact hinj.symm

/-- Witness for the amended C1 at scenario A. -/
theorem metadata_filters_overwrite_witness :
    argsA.reportMetadata = some mA ∧
    mA.filters = some [filtA2] ∧
    resolveFieldMaps envA argsA = .ok mapsA ∧
    assembleReport envA argsA = .ok bodyA ∧
    bodyA.reportFilters = some ([filtA2].map (simplifiedToOut mapsA)) :=
  ⟨rfl, rfl, by decide, by decide,
    metadata_filters_overwrite envA argsA mA mapsA filtA2 [] bodyA rfl rfl
      (by decide) (by decide)⟩

/-- C2 (counterexample): in scenario A the `groupingsDown` argument names
`BOGUS_GROUP`, which is the canonical value of no entry of the resolved
field index, yet the call succeeds end to end and the assembled document
carries the unknown grouping name instead of failing with a validation
error. -/
theorem unknown_grouping_name_accepted :
    handleCreateReport envA (some argsA) =
      .ok { text := "Successfully created report \x27My Report!\x27 in folder \x27FOLDA\x27 (Id: 00O1)",
            isError := false } ∧
    assembleReport envA argsA = .ok bodyA ∧
    bodyA.groupingsDown = some
      [{ name := "BOGUS_GROUP", sortOrder := "Asc", sortAggregate := none,
         dateGranularity := "None" }] ∧
    (∀ kv ∈ mapsA.fieldMap, kv.2 ≠ "BOGUS_GROUP") := by
  refine ⟨by decide, by decide, by decide, by decide⟩

/-- C2 (amended): grouping names are never validated. Replacing the
grouping arguments — direct `groupingsDown`/`groupingsAcross` and the nested
metadata groupings — by arbitrary lists never changes whether assembly
succeeds; grouping entries are canonicalized on a best-effort basis (with
fallback to the uppercased or raw name) and an unknown name flows into the
document. -/
theorem groupings_never_validated (env : SfEnv) (args : CreateReportArgs)
    (gd ga mgd mga : Option (List GroupingIn)) :
    exceptOk (assembleReport env (setGroupings args gd ga mgd mga)) =
      exceptOk (assembleReport env args) := by
  simp only [assembleReport, exceptOk_map]
  obtain ⟨rn, onm, cs, fs, rt, fn, fid, idv, rfmt, rbf, rfs, dcs, dn, cur, ags,
    gdn, gac, rm, sc, sgt, sst, hdr, hrc, dv, uofi, srh, hsd⟩ := args
  apply assembleParts_congr
  · rfl
  · rfl
  · intro maps
    rfl
  · intro maps
    rcases rm with _ | m <;> rfl

/-- C7: a batch containing an identifier with no case-insensitive mapping in
a field index built from a schema without empty apiNames fails as a whole:
`throwIfInvalidFields` throws on the first such identifier, and the error
message contains that offending identifier together with every canonical
apiName of the index. -/
theorem unknown_field_rejected (desc : SchemaDescription)
    (fieldsArr : List String) (kind bad : String)
    (hkeys : SchemaKeysNonEmpty desc) (hbad : bad ∈ fieldsArr) (hbne : bad ≠ "")
    (hnm : NoFieldMapping (buildFieldMapsFromDesc desc).fieldMap bad) :
    ∃ off msg,
      throwIfInvalidFields fieldsArr kind (buildFieldMapsFromDesc desc).fieldMap =
        .error msg ∧
      off ∈ fieldsArr ∧ off ≠ "" ∧
      NoFieldMapping (buildFieldMapsFromDesc desc).fieldMap off ∧
      strContains msg off ∧
      ∀ v ∈ jsValues (buildFieldMapsFromDesc desc).fieldMap, strContains msg v := by
  obtain ⟨off, h1, h2, h3, h4, h5⟩ :=
    checkFields_error kind (buildFieldMaps_good hkeys) hbad hbne hnm
  refine ⟨off,
    validationMessage off kind
      (jsSetElems (jsValues (buildFieldMapsFromDesc desc).fieldMap)),
    h2, h3, h4, h5, ?_, ?_⟩
  · exact strContains_validationMessage_requested _ _ _
  · intro v hv
    exact strContains_validationMessage_allowed (mem_jsSetElems.mpr hv)

/-- Witness for C7: requesting the column `BOGUS_FIELD` against the
scenario-A schema fails the batch. -/
theorem unknown_field_rejected_witness :
    SchemaKeysNonEmpty descA ∧
    "BOGUS_FIELD" ∈ ["BOGUS_FIELD"] ∧ ("BOGUS_FIELD" : String) ≠ "" ∧
    NoFieldMapping (buildFieldMapsFromDesc descA).fieldMap "BOGUS_FIELD" ∧
    (∃ off msg,
      throwIfInvalidFields ["BOGUS_FIELD"] "column"
        (buildFieldMapsFromDesc descA).fieldMap = .error msg ∧
      off ∈ ["BOGUS_FIELD"] ∧ off ≠ "" ∧
      NoFieldMapping (buildFieldMapsFromDesc descA).fieldMap off ∧
      strContains msg off ∧
      ∀ v ∈ jsValues (buildFieldMapsFromDesc descA).fieldMap, strContains msg v) :=
  ⟨by decide, by decide, by decide, by decide,
    unknown_field_rejected descA ["BOGUS_FIELD"] "column" "BOGUS_FIELD"
      (by decide) (by decide) (by decide) (by decide)⟩

end SfReport
